import Mathlib

/-!
Verification of the introspection-client library (Go) against its
natural-language specification.  The definitions below are a shallow
embedding of the relevant source functions: timestamps become a record of
UTC calendar fields, Go maps become functions into `Option`, the SHA-256
hasher is an abstract parameter, and the concurrent sync trigger becomes a
small-step transition system.  Every definition is translated from the
repository source, with the single exception of `specCAPath`, which encodes
the specification's wording for comparison with the code.
-/

/-! ## Go time formatting (wire timestamps) -/

/-- UTC wall-clock instant with a nanosecond part, standing for the Go
`time.Time` values the library formats onto the wire (every such value in
this code base is in UTC: the client calls `.UTC()`, and x509 validity
times are UTC). -/
structure GoTime where
  year : Nat
  month : Nat
  day : Nat
  hour : Nat
  minute : Nat
  second : Nat
  nanos : Nat
  deriving DecidableEq, Repr

/-- Two-digit zero padding, as Go layout components `01`, `02`, `15`, `04`, `05`. -/
def pad2 (n : Nat) : String :=
  if n < 10 then "0" ++ toString n else toString n

/-- Four-digit zero padding, as the Go layout component `2006`. -/
def pad4 (n : Nat) : String :=
  if n < 10 then "000" ++ toString n
  else if n < 100 then "00" ++ toString n
  else if n < 1000 then "0" ++ toString n
  else toString n

/-- The common date-time body `2006-01-02T15:04:05` of the RFC3339 layouts. -/
def GoTime.baseRFC3339 (t : GoTime) : String :=
  pad4 t.year ++ "-" ++ pad2 t.month ++ "-" ++ pad2 t.day ++ "T" ++
  pad2 t.hour ++ ":" ++ pad2 t.minute ++ ":" ++ pad2 t.second

/-- Go `t.Format("2006-01-02T15:04:05+00:00")`: second resolution, literal
`+00:00` suffix.  Used for the heartbeat fields (part_002 lines 669-670) and
the service-info `start_time` (part_002 `ServiceInfo.GetData`). -/
def GoTime.formatSecPlus0000 (t : GoTime) : String :=
  t.baseRFC3339 ++ "+00:00"

/-- Go `t.Format(time.RFC3339)` on a UTC time: the layout suffix `Z07:00`
renders as a literal `Z` when the offset is zero. -/
def GoTime.formatRFC3339UTC (t : GoTime) : String :=
  t.baseRFC3339 ++ "Z"

/-- Nine-digit zero-padded nanoseconds, as the Go layout fragment `.999999999`. -/
def pad9 (n : Nat) : String :=
  String.mk (List.replicate (9 - (toString n).length) '0') ++ toString n

/-- Drop trailing zero characters (Go trims trailing zeros of the fraction). -/
def stripTrailingZeroChars (s : String) : String :=
  String.mk ((s.data.reverse.dropWhile (fun c => c = '0')).reverse)

/-- Fractional-second part of Go `time.RFC3339Nano`: omitted entirely when the
nanosecond field is zero, otherwise a dot followed by the nanoseconds with
trailing zeros removed. -/
def nanoFrac (n : Nat) : String :=
  if n = 0 then "" else "." ++ stripTrailingZeroChars (pad9 n)

/-- Go `time.Time.MarshalJSON` payload for a UTC time (RFC3339Nano): used for
`LogEntry.Timestamp` via the `json:"timestamp"` tag in connectivity.go. -/
def GoTime.formatRFC3339NanoUTC (t : GoTime) : String :=
  t.baseRFC3339 ++ nanoFrac t.nanos ++ "Z"

/-- Heartbeat component `heartbeat` field (part_002 line 669). -/
def heartbeatFieldString (now : GoTime) : String :=
  now.formatSecPlus0000

/-- Heartbeat component `idle_since` field (part_002 line 670). -/
def idleSinceFieldString (idleSince : GoTime) : String :=
  idleSince.formatSecPlus0000

/-- Service-info `start_time` field (part_002 `ServiceInfo.GetData`, line 93). -/
def serviceInfoStartTimeString (startTime : GoTime) : String :=
  startTime.formatSecPlus0000

/-- Connectivity component `last_call` field
(src/standard/connectivity.go line 162: `lastCall.Format(time.RFC3339)`). -/
def connectivityLastCallString (lastCall : GoTime) : String :=
  lastCall.formatRFC3339UTC

/-- Certificate component `valid_from` field (part_001 line 95). -/
def certValidFromString (validFrom : GoTime) : String :=
  validFrom.formatRFC3339UTC

/-- Certificate component `valid_until` field (part_001 line 96). -/
def certValidUntilString (validUntil : GoTime) : String :=
  validUntil.formatRFC3339UTC

/-- Log entry timestamp as serialised by `json.Marshal` of the `LogEntry`
struct (connectivity.go line 212, `time.Time` marshals as RFC3339Nano). -/
def logEntryTimestampJSON (ts : GoTime) : String :=
  ts.formatRFC3339NanoUTC

/-! ## Backoff system -/

/-- Prime number sequence for backoff (part_002 line 851). -/
def backoffPrimes : List Nat := [1, 2, 3, 5, 11, 23, 47, 61]

/-- `Client.getBackoffDuration` (part_002 lines 854-870), in seconds. -/
def getBackoffDuration (backoffIndex : Nat) : Nat :=
  let maxBackoff := 59
  if backoffIndex ≥ backoffPrimes.length then
    maxBackoff
  else
    let backoffSec := backoffPrimes.getD backoffIndex 0
    if backoffSec > maxBackoff then maxBackoff else backoffSec

/-- Observable effect of `Client.executeSync` (part_002 lines 609-637) when
the first `failures` three-phase attempts fail and the next one succeeds,
starting from the given `backoffIndex`: the list of backoff sleeps (seconds,
in order) and the final value of `backoffIndex`.  The loop sleeps for the
duration at the current index and then increments the index; on success it
resets the index to zero and returns. -/
def executeSyncRun (backoffIndex : Nat) : Nat → List Nat × Nat
  | 0 => ([], 0)
  | n + 1 =>
    let d := getBackoffDuration backoffIndex
    let rest := executeSyncRun (backoffIndex + 1) n
    (d :: rest.1, rest.2)

theorem getBackoffDuration_eq (m : Nat) :
    getBackoffDuration m = [1, 2, 3, 5, 11, 23, 47, 59].getD m 59 := by
  match m with
  | 0 | 1 | 2 | 3 | 4 | 5 | 6 | 7 => rfl
  | n + 8 =>
    have h1 : backoffPrimes.length ≤ n + 8 := by simp [backoffPrimes]
    have h2 : ([1, 2, 3, 5, 11, 23, 47, 59] : List Nat).length ≤ n + 8 := by simp
    rw [List.getD_eq_default _ _ h2]
    simp [getBackoffDuration, h1]

theorem executeSyncRun_getD (j : Nat) :
    ∀ (n i : Nat), j < n →
      (executeSyncRun i n).1.getD j 0 = getBackoffDuration (i + j) := by
  induction j with
  | zero =>
    intro n i h
    match n, h with
    | n + 1, _ => rfl
  | succ j ih =>
    intro n i h
    match n, h with
    | n + 1, h =>
      have : j < n := by omega
      show (executeSyncRun (i + 1) n).1.getD j 0 = _
      rw [ih n (i + 1) this]
      congr 1
      omega

theorem executeSyncRun_snd (n i : Nat) : (executeSyncRun i n).2 = 0 := by
  induction n generalizing i with
  | zero => rfl
  | succ n ih => exact ih (i + 1)

/-- C3: for every k ≥ 1, the sleep before the k-th retry after k consecutive
failures (backoff index starting at 0, i.e. right after a success or at
start-up) is the k-th element of [1, 2, 3, 5, 11, 23, 47, 61] seconds with
each value clamped to 59 s (so the 8th is 59, not 61) and every position
beyond the sequence yielding 59 s; and after the eventual success the
backoff index is reset to zero, whatever index the run started from. -/
theorem c3_backoff_schedule (k n : Nat) (h1 : 1 ≤ k) (h2 : k ≤ n) :
    ((executeSyncRun 0 n).1.getD (k - 1) 0
        = [1, 2, 3, 5, 11, 23, 47, 59].getD (k - 1) 59) ∧
    (executeSyncRun 0 n).2 = 0 ∧
    (∀ i, (executeSyncRun i n).2 = 0) := by
  refine ⟨?_, executeSyncRun_snd n 0, fun i => executeSyncRun_snd n i⟩
  have hk : k - 1 < n := by omega
  rw [executeSyncRun_getD (k - 1) n 0 hk]
  rw [getBackoffDuration_eq]
  norm_num

theorem c3_backoff_schedule_witness :
    ((executeSyncRun 0 10).1.getD (9 - 1) 0
        = [1, 2, 3, 5, 11, 23, 47, 59].getD (9 - 1) 59) ∧
    (executeSyncRun 0 10).2 = 0 ∧
    (∀ i, (executeSyncRun i 10).2 = 0) :=
  c3_backoff_schedule 9 10 (by decide) (by decide)

/-- C5 counterexample: the connectivity component's `last_call` value — a
timestamp placed on the wire — is produced with Go `time.RFC3339`, so for a
UTC instant it ends in a literal `Z` and does not carry the `+00:00` suffix
the claim requires of every wire timestamp. -/
theorem c5_counterexample :
    connectivityLastCallString ⟨2026, 1, 2, 3, 4, 5, 0⟩ = "2026-01-02T03:04:05Z" ∧
    ¬ ∃ p : String,
        connectivityLastCallString ⟨2026, 1, 2, 3, 4, 5, 0⟩ = p ++ "+00:00" := by
  refine ⟨rfl, ?_⟩
  rintro ⟨p, hp⟩
  have h1 : (connectivityLastCallString ⟨2026, 1, 2, 3, 4, 5, 0⟩).data.getLast? = some 'Z' := by
    decide
  have h2 : (p ++ "+00:00").data.getLast? = some '0' := by
    have : (p ++ "+00:00").data = p.data ++ "+00:00".data := rfl
    rw [this, @List.getLast?_append_of_ne_nil Char p.data ("+00:00".data) (by decide)]
    decide
  rw [hp, h2] at h1
  exact absurd h1 (by decide)

/-- C5 (amended): the heartbeat component's `heartbeat` and `idle_since`
fields and the service-info `start_time` are formatted at second resolution
with a literal `+00:00` suffix; but the connectivity component's `last_call`,
the certificate component's `valid_from`/`valid_until`, and log entry
timestamps use Go RFC3339(/Nano) formatting, which renders UTC instants with
a `Z` suffix (log timestamps additionally at nanosecond resolution). -/
theorem c5_amended_wire_timestamps :
    (∀ t : GoTime,
        heartbeatFieldString t = t.baseRFC3339 ++ "+00:00" ∧
        idleSinceFieldString t = t.baseRFC3339 ++ "+00:00" ∧
        serviceInfoStartTimeString t = t.baseRFC3339 ++ "+00:00") ∧
    (∀ t : GoTime,
        connectivityLastCallString t = t.baseRFC3339 ++ "Z" ∧
        certValidFromString t = t.baseRFC3339 ++ "Z" ∧
        certValidUntilString t = t.baseRFC3339 ++ "Z" ∧
        logEntryTimestampJSON t = t.baseRFC3339 ++ nanoFrac t.nanos ++ "Z") ∧
    heartbeatFieldString ⟨2026, 1, 2, 3, 4, 5, 0⟩ = "2026-01-02T03:04:05+00:00" ∧
    logEntryTimestampJSON ⟨2026, 1, 2, 3, 4, 5, 123000000⟩ = "2026-01-02T03:04:05.123Z" :=
  ⟨fun _ => ⟨rfl, rfl, rfl⟩, fun _ => ⟨rfl, rfl, rfl, rfl⟩, rfl, by decide⟩

/-! ## RecentLogs (log ring buffer) -/

/-- Log levels (connectivity.go lines 203-208). -/
inductive LogLevel
  | error
  | warn
  | info
  | debug
  deriving DecidableEq, Repr

/-- A single log entry (connectivity.go lines 211-216).  The timestamp is an
abstract instant; context values are abstracted to strings (the Go code only
ever stores and serialises them). -/
structure LogEntry where
  timestamp : Nat
  level : LogLevel
  message : String
  context : List (String × String)
  deriving DecidableEq, Repr

/-- State of the `RecentLogs` ring (connectivity.go lines 219-224); the
trigger function is handled separately at its call sites. -/
structure RecentLogs where
  entries : List LogEntry
  maxEntries : Nat
  deriving DecidableEq, Repr

/-- `NewRecentLogs` (connectivity.go lines 227-236): a non-positive capacity
is silently replaced by the default capacity 100. -/
def newRecentLogs (maxEntries : Int) : RecentLogs :=
  let m := if maxEntries ≤ 0 then 100 else maxEntries
  { entries := [], maxEntries := m.toNat }

/-- Outcome of a call to `RecentLogs.Log`: either a Go panic (carrying the
panic message; the entry list is NOT extended) or the updated state. -/
inductive LogOutcome
  | panicked (msg : String)
  | ok (st : RecentLogs)
  deriving DecidableEq, Repr

/-- `RecentLogs.Log` (connectivity.go lines 248-274): panics on an empty (or
nil) context map; otherwise appends the entry and keeps only the last
`maxEntries` entries. -/
def RecentLogs.log (r : RecentLogs) (level : LogLevel) (message : String)
    (context : List (String × String)) (now : Nat) : LogOutcome :=
  if context.length = 0 then
    .panicked "RecentLogs.Log: context must be non-empty (use structured logging!)"
  else
    let entry : LogEntry := ⟨now, level, message, context⟩
    let entries := r.entries ++ [entry]
    let entries :=
      if entries.length > r.maxEntries then
        entries.drop (entries.length - r.maxEntries)
      else entries
    .ok { r with entries := entries }

/-- One logging call, for running sequences of operations. -/
structure LogCall where
  level : LogLevel
  message : String
  context : List (String × String)
  now : Nat
  deriving DecidableEq, Repr

/-- The entry a successful call records. -/
def LogCall.entry (op : LogCall) : LogEntry :=
  ⟨op.now, op.level, op.message, op.context⟩

/-- Run a sequence of logging calls; `none` once a call panics (the Go panic
propagates, so no further calls run). -/
def runLogs (r : RecentLogs) : List LogCall → Option RecentLogs
  | [] => some r
  | op :: ops =>
    match r.log op.level op.message op.context op.now with
    | .panicked _ => none
    | .ok r2 => runLogs r2 ops

/-- The last `n` elements of a list. -/
def lastN (n : Nat) (l : List α) : List α :=
  l.drop (l.length - n)

theorem lastN_append_one (m : Nat) (L : List α) (e : α) :
    lastN m ((lastN m L) ++ [e]) = lastN m (L ++ [e]) := by
  unfold lastN
  rw [List.length_append, List.length_drop]
  rw [← List.drop_append_of_le_length (by omega)]
  rw [List.drop_drop]
  congr 1
  rw [List.length_append]
  omega

theorem RecentLogs.log_ok (r : RecentLogs) (level : LogLevel) (msg : String)
    (ctx : List (String × String)) (now : Nat) (h : ctx ≠ []) :
    r.log level msg ctx now
      = .ok { r with entries := lastN r.maxEntries (r.entries ++ [⟨now, level, msg, ctx⟩]) } := by
  have hlen : ¬ ctx.length = 0 := fun h0 => h (List.length_eq_zero.mp h0)
  by_cases hc : (r.entries ++ [(⟨now, level, msg, ctx⟩ : LogEntry)]).length > r.maxEntries
  · simp only [RecentLogs.log, lastN, if_neg hlen, if_pos hc]
  · have h0 : (r.entries ++ [(⟨now, level, msg, ctx⟩ : LogEntry)]).length - r.maxEntries = 0 := by
      omega
    simp only [RecentLogs.log, lastN, if_neg hlen, if_neg hc, h0, List.drop_zero]

theorem runLogs_lastN (ops : List LogCall) (r : RecentLogs) (L : List LogEntry)
    (hinv : r.entries = lastN r.maxEntries L)
    (h : ∀ op ∈ ops, op.context ≠ []) :
    ∃ st, runLogs r ops = some st ∧ st.maxEntries = r.maxEntries ∧
      st.entries = lastN r.maxEntries (L ++ ops.map LogCall.entry) := by
  induction ops generalizing r L with
  | nil =>
    exact ⟨r, rfl, rfl, by simpa using hinv⟩
  | cons op ops ih =>
    have hop : op.context ≠ [] := h op (by simp)
    have hrest : ∀ op2 ∈ ops, op2.context ≠ [] := fun op2 hm => h op2 (by simp [hm])
    have hstep := RecentLogs.log_ok r op.level op.message op.context op.now hop
    have hentries :
        lastN r.maxEntries (r.entries ++ [op.entry]) = lastN r.maxEntries (L ++ [op.entry]) := by
      rw [hinv, lastN_append_one]
    obtain ⟨st, hrun, hmax, hent⟩ :=
      ih { r with entries := lastN r.maxEntries (r.entries ++ [op.entry]) }
        (L ++ [op.entry]) (by simpa using hentries) hrest
    refine ⟨st, ?_, hmax, ?_⟩
    · show runLogs r (op :: ops) = some st
      unfold runLogs
      rw [show (⟨op.now, op.level, op.message, op.context⟩ : LogEntry) = op.entry from rfl] at hstep
      rw [hstep]
      exact hrun
    · rw [hent]
      simp

/-- C9: for every log level, `RecentLogs.Log` with an empty (or nil) context
map panics — it is rejected as a programming error and records no entry —
while with a non-empty context it records the entry (the new entry is the
most recent one in the buffer).  In particular Info with message x and empty
context never records an entry. -/
theorem c9_log_context_validation (r : RecentLogs) (level : LogLevel)
    (msg : String) (ctx : List (String × String)) (now : Nat)
    (hm : 0 < r.maxEntries) :
    (ctx = [] →
      r.log level msg ctx now
          = .panicked "RecentLogs.Log: context must be non-empty (use structured logging!)" ∧
      ∀ st, r.log level msg ctx now ≠ .ok st) ∧
    (ctx ≠ [] →
      ∃ st, r.log level msg ctx now = .ok st ∧
        st.entries.getLast? = some ⟨now, level, msg, ctx⟩ ∧
        st.maxEntries = r.maxEntries) := by
  constructor
  · rintro rfl
    refine ⟨rfl, fun st hst => ?_⟩
    simp [RecentLogs.log] at hst
  · intro h
    rw [RecentLogs.log_ok r level msg ctx now h]
    refine ⟨_, rfl, ?_, rfl⟩
    show (lastN r.maxEntries (r.entries ++ [⟨now, level, msg, ctx⟩])).getLast? = _
    unfold lastN
    rw [List.getLast?_drop]
    have hcond : ¬ ((r.entries ++ [(⟨now, level, msg, ctx⟩ : LogEntry)]).length ≤
        (r.entries ++ [(⟨now, level, msg, ctx⟩ : LogEntry)]).length - r.maxEntries) := by
      simp only [List.length_append, List.length_cons, List.length_nil]
      omega
    rw [if_neg hcond]
    rw [List.getLast?_append_of_ne_nil _ (by simp)]
    rfl

theorem c9_log_context_validation_witness :
    (RecentLogs.log (newRecentLogs 100) .info "x" [] 0
        = .panicked "RecentLogs.Log: context must be non-empty (use structured logging!)" ∧
      ∀ st, RecentLogs.log (newRecentLogs 100) .info "x" [] 0 ≠ .ok st) ∧
    (∃ st, RecentLogs.log (newRecentLogs 100) .error "boom" [("k", "v")] 7 = .ok st ∧
      st.entries.getLast? = some ⟨7, .error, "boom", [("k", "v")]⟩ ∧
      st.maxEntries = (newRecentLogs 100).maxEntries) :=
  ⟨(c9_log_context_validation (newRecentLogs 100) .info "x" [] 0 (by decide)).1 rfl,
   (c9_log_context_validation (newRecentLogs 100) .error "boom" [("k", "v")] 7 (by decide)).2
     (by decide)⟩

/-- C10: from a fresh `NewRecentLogs cap`, after any sequence of (non-panicking)
logging operations the buffer holds exactly the most recent entries in order —
the last `maxEntries` of the full history, with the oldest evicted first —
hence never more than `maxEntries`; and a non-positive capacity is silently
replaced by the default capacity 100 while a positive one is kept. -/
theorem c10_ring_buffer_invariant (cap : Int) (ops : List LogCall)
    (h : ∀ op ∈ ops, op.context ≠ []) :
    ∃ st, runLogs (newRecentLogs cap) ops = some st ∧
      st.entries = lastN st.maxEntries (ops.map LogCall.entry) ∧
      st.entries.length ≤ st.maxEntries ∧
      (cap ≤ 0 → st.maxEntries = 100) ∧
      (0 < cap → st.maxEntries = cap.toNat) := by
  obtain ⟨st, hrun, hmax, hent⟩ :=
    runLogs_lastN ops (newRecentLogs cap) [] (by simp [newRecentLogs, lastN]) h
  refine ⟨st, hrun, ?_, ?_, ?_, ?_⟩
  · rw [hent, hmax]
    simp
  · rw [hent]
    unfold lastN
    rw [List.length_drop, hmax]
    omega
  · intro hcap
    rw [hmax]
    simp [newRecentLogs, if_pos hcap]
  · intro hcap
    rw [hmax]
    simp [newRecentLogs, if_neg (by omega : ¬ cap ≤ 0)]

theorem c10_ring_buffer_invariant_witness :
    ∃ st, runLogs (newRecentLogs (-5))
        [⟨.info, "a", [("k", "1")], 1⟩, ⟨.warn, "b", [("k", "2")], 2⟩,
         ⟨.error, "c", [("k", "3")], 3⟩] = some st ∧
      st.entries = lastN st.maxEntries
        ([⟨.info, "a", [("k", "1")], 1⟩, ⟨.warn, "b", [("k", "2")], 2⟩,
          ⟨.error, "c", [("k", "3")], 3⟩].map LogCall.entry) ∧
      st.entries.length ≤ st.maxEntries ∧
      ((-5 : Int) ≤ 0 → st.maxEntries = 100) ∧
      ((0 : Int) < -5 → st.maxEntries = (-5 : Int).toNat) :=
  c10_ring_buffer_invariant (-5)
    [⟨.info, "a", [("k", "1")], 1⟩, ⟨.warn, "b", [("k", "2")], 2⟩,
     ⟨.error, "c", [("k", "3")], 3⟩] (by decide)

/-! ## Registry (component registration and checksum-aware collection) -/

/-- An introspection component (src/component/component.go lines 12-17).  The
opaque JSON data is represented by its serialised bytes. -/
structure Component where
  id : String
  type : String
  checksum : String
  data : String
  deriving DecidableEq, Repr

/-- Provider and update settings (part_003 lines 33-36).  The provider
closure is abstracted to an identifier; `none` for `updateInterval` models a
nil pointer (OnlyTrigger). -/
structure ComponentConfig where
  provider : Nat
  updateInterval : Option Nat
  deriving DecidableEq, Repr

/-- Cache entry for smart checksum optimisation (part_003 lines 39-45). -/
structure CachedComponent where
  lastRawJSON : String
  lastChecksum : String
  lastComponent : Component
  lastSync : Nat
  lastUpdate : Nat
  deriving DecidableEq, Repr

/-- A Go `map[string]V`, as a function into `Option`. -/
def StrMap (β : Type) : Type := String → Option β

/-- The empty map. -/
def StrMap.empty {β : Type} : StrMap β := fun _ => none

/-- Map update (`m[k] = v`; with `none`, deletion). -/
def StrMap.upd {β : Type} (m : StrMap β) (k : String) (v : Option β) : StrMap β :=
  fun k2 => if k2 = k then v else m k2

/-- The Registry state (part_003 lines 19-30): nested maps
entityID → componentID → config/cache, as in the Go struct, so that the
entity-map initialisation performed by `RegisterForEntity` is visible. -/
structure Registry where
  ownEntityID : String
  configs : StrMap (StrMap ComponentConfig)
  cache : StrMap (StrMap CachedComponent)

/-- `registry.New` (part_003 lines 48-58); the panic on an empty entity id is
not modelled since no claim touches it and all uses pass a non-empty id. -/
def Registry.new (ownEntityID : String) : Registry :=
  { ownEntityID := ownEntityID, configs := StrMap.empty, cache := StrMap.empty }

/-- Config lookup `r.configs[e][c]` (nil maps read as empty). -/
def Registry.lookupConfig (r : Registry) (e c : String) : Option ComponentConfig :=
  match r.configs e with
  | none => none
  | some m => m c

/-- Cache lookup `r.cache[e][c]` (nil maps read as empty). -/
def Registry.lookupCache (r : Registry) (e c : String) : Option CachedComponent :=
  match r.cache e with
  | none => none
  | some m => m c

/-- `Registry.RegisterForEntity` (part_003 lines 68-107).  Returns the
post-state together with the error, if any, because the Go method mutates the
receiver in place (in particular, the entity-map initialisation happens
before the duplicate check).  `provider = none` models a nil provider;
`updateInterval` models the optional variadic argument. -/
def Registry.registerForEntity (r : Registry) (entityID componentID : String)
    (provider : Option Nat) (updateInterval : Option Nat) : Registry × Option String :=
  if entityID = "" then (r, some "entityID required")
  else if componentID = "" then (r, some "componentID required")
  else match provider with
  | none => (r, some "provider required")
  | some p =>
    let configsE := (r.configs entityID).getD StrMap.empty
    let cacheE := (r.cache entityID).getD StrMap.empty
    let r1 : Registry := { r with
      configs := r.configs.upd entityID (some configsE),
      cache := r.cache.upd entityID (some cacheE) }
    match configsE componentID with
    | some _ =>
      (r1, some ("component " ++ componentID ++ " already registered for entity " ++ entityID))
    | none =>
      let newConfigsE := configsE.upd componentID (some ⟨p, updateInterval⟩)
      ({ r1 with configs := r1.configs.upd entityID (some newConfigsE) }, none)

/-- Result of `Registry.Collect`: the returned component or error, the
post-state, and the number of SHA-256 computations performed. -/
structure CollectResult where
  result : Except String Component
  registry : Registry
  hashCalls : Nat

/-- `Registry.Collect` (part_003 lines 111-165).  `hash` abstracts
`sha256.Sum256` + hex encoding; `jsonData` is the successful
`json.Marshal` of the provider's return value at this call (the provider
and serialisation are external inputs to the caching logic); `now` is
`time.Now()`.  On a cache hit (equal raw JSON) the cached component is
returned with no hash computation and only `lastUpdate` is advanced;
otherwise a fresh checksum and component are built and the cache entry is
replaced, preserving `lastSync` (zero time if there was no entry). -/
def Registry.collect (r : Registry) (hash : String → String)
    (e c : String) (jsonData : String) (now : Nat) : CollectResult :=
  match r.lookupConfig e c with
  | none =>
    { result := .error ("component " ++ c ++ " not registered for entity " ++ e),
      registry := r, hashCalls := 0 }
  | some _ =>
    let cacheE := (r.cache e).getD StrMap.empty
    match cacheE c with
    | some cached =>
      if cached.lastRawJSON = jsonData then
        { result := .ok cached.lastComponent,
          registry := { r with
            cache := r.cache.upd e (some (cacheE.upd c (some { cached with lastUpdate := now }))) },
          hashCalls := 0 }
      else
        let checksum := hash jsonData
        let comp : Component := ⟨c, c, checksum, jsonData⟩
        { result := .ok comp,
          registry := { r with
            cache := r.cache.upd e (some (cacheE.upd c
              (some ⟨jsonData, checksum, comp, cached.lastSync, now⟩))) },
          hashCalls := 1 }
    | none =>
      let checksum := hash jsonData
      let comp : Component := ⟨c, c, checksum, jsonData⟩
      { result := .ok comp,
        registry := { r with
          cache := r.cache.upd e (some (cacheE.upd c
            (some ⟨jsonData, checksum, comp, 0, now⟩))) },
        hashCalls := 1 }

@[simp] theorem StrMap.upd_same {β : Type} (m : StrMap β) (k : String) (v : Option β) :
    m.upd k v k = v := by
  simp [StrMap.upd]

theorem StrMap.upd_ne {β : Type} (m : StrMap β) (k : String) (v : Option β)
    {k2 : String} (h : k2 ≠ k) : m.upd k v k2 = m k2 := by
  simp [StrMap.upd, h]

theorem StrMap.upd_eq_self {β : Type} (m : StrMap β) (k : String) (v : Option β)
    (h : m k = v) : m.upd k v = m := by
  funext k2
  by_cases hk : k2 = k
  · subst hk
    rw [StrMap.upd_same, h]
  · rw [StrMap.upd_ne _ _ _ hk]

/-- Well-formedness of a Registry state: whenever an entity's config map has
been created, its cache map has been created too.  `New` establishes it
(both maps empty) and `RegisterForEntity` creates both entity maps together,
so every reachable Go state satisfies it. -/
def Registry.WF (r : Registry) : Prop :=
  ∀ e, (r.configs e).isSome = true → (r.cache e).isSome = true

theorem Registry.new_WF (s : String) : (Registry.new s).WF := by
  intro e h
  exact h

theorem Registry.register_invalid_entity (r : Registry) (c : String)
    (p : Option Nat) (i : Option Nat) :
    r.registerForEntity "" c p i = (r, some "entityID required") := by
  simp [Registry.registerForEntity]

theorem Registry.register_invalid_component (r : Registry) (e : String)
    (he : e ≠ "") (p : Option Nat) (i : Option Nat) :
    r.registerForEntity e "" p i = (r, some "componentID required") := by
  simp [Registry.registerForEntity, he]

theorem Registry.register_nil_provider (r : Registry) (e c : String)
    (he : e ≠ "") (hc : c ≠ "") (i : Option Nat) :
    r.registerForEntity e c none i = (r, some "provider required") := by
  simp [Registry.registerForEntity, he, hc]

theorem Registry.register_duplicate (r : Registry) (e c : String)
    (he : e ≠ "") (hc : c ≠ "") (p : Nat) (i : Option Nat) (cfg : ComponentConfig)
    (hdup : r.lookupConfig e c = some cfg) (hwf : r.WF) :
    r.registerForEntity e c (some p) i
      = (r, some ("component " ++ c ++ " already registered for entity " ++ e)) := by
  obtain ⟨m, hconf⟩ : ∃ m, r.configs e = some m := by
    unfold Registry.lookupConfig at hdup
    cases hcase : r.configs e with
    | none => rw [hcase] at hdup; exact absurd hdup (by simp)
    | some m => exact ⟨m, rfl⟩
  have hmc : m c = some cfg := by
    unfold Registry.lookupConfig at hdup
    rw [hconf] at hdup
    exact hdup
  obtain ⟨mc, hcache⟩ : ∃ mc, r.cache e = some mc := by
    have := hwf e (by rw [hconf]; rfl)
    cases hcase : r.cache e with
    | none => rw [hcase] at this; exact absurd this (by simp)
    | some mc => exact ⟨mc, rfl⟩
  unfold Registry.registerForEntity
  rw [if_neg he, if_neg hc]
  show (let configsE := (r.configs e).getD StrMap.empty; _) = _
  rw [hconf, hcache]
  show (match m c with
    | some _ => ({ r with configs := r.configs.upd e (some m), cache := r.cache.upd e (some mc) },
        some ("component " ++ c ++ " already registered for entity " ++ e))
    | none => _) = _
  rw [hmc]
  rw [StrMap.upd_eq_self _ _ _ hconf, StrMap.upd_eq_self _ _ _ hcache]

theorem Registry.register_fresh (r : Registry) (e c : String)
    (he : e ≠ "") (hc : c ≠ "") (p : Nat) (i : Option Nat)
    (hnew : r.lookupConfig e c = none) :
    r.registerForEntity e c (some p) i
      = ({ r with
            configs := (r.configs.upd e (some ((r.configs e).getD StrMap.empty))).upd e
              (some (((r.configs e).getD StrMap.empty).upd c (some ⟨p, i⟩))),
            cache := r.cache.upd e (some ((r.cache e).getD StrMap.empty)) }, none) := by
  have hce : ((r.configs e).getD StrMap.empty) c = none := by
    unfold Registry.lookupConfig at hnew
    cases hcase : r.configs e with
    | none => rfl
    | some m => rw [hcase] at hnew; simpa using hnew
  unfold Registry.registerForEntity
  rw [if_neg he, if_neg hc]
  simp only [hce]

theorem Registry.getD_configs (r : Registry) (e c : String) :
    ((r.configs e).getD StrMap.empty) c = r.lookupConfig e c := by
  unfold Registry.lookupConfig
  cases r.configs e <;> rfl

theorem Registry.getD_cache (r : Registry) (e c : String) :
    ((r.cache e).getD StrMap.empty) c = r.lookupCache e c := by
  unfold Registry.lookupCache
  cases r.cache e <;> rfl


theorem Registry.lookupConfig_eq (r : Registry) (e c : String) :
    r.lookupConfig e c = ((r.configs e).getD StrMap.empty) c :=
  (Registry.getD_configs r e c).symm

theorem Registry.lookupCache_eq (r : Registry) (e c : String) :
    r.lookupCache e c = ((r.cache e).getD StrMap.empty) c :=
  (Registry.getD_cache r e c).symm

theorem Registry.register_fresh_lookupConfig (r : Registry) (e c : String)
    (he : e ≠ "") (hc : c ≠ "") (p : Nat) (i : Option Nat)
    (hcc : r.lookupConfig e c = none) (e2 c2 : String) :
    (r.registerForEntity e c (some p) i).1.lookupConfig e2 c2
      = if e2 = e ∧ c2 = c then some ⟨p, i⟩ else r.lookupConfig e2 c2 := by
  rw [Registry.register_fresh r e c he hc p i hcc]
  by_cases he2 : e2 = e <;> by_cases hc2 : c2 = c <;>
    simp [Registry.lookupConfig_eq, StrMap.upd, he2, hc2]

theorem Registry.register_fresh_lookupCache (r : Registry) (e c : String)
    (he : e ≠ "") (hc : c ≠ "") (p : Nat) (i : Option Nat)
    (hcc : r.lookupConfig e c = none) (e2 c2 : String) :
    (r.registerForEntity e c (some p) i).1.lookupCache e2 c2
      = r.lookupCache e2 c2 := by
  rw [Registry.register_fresh r e c he hc p i hcc]
  by_cases he2 : e2 = e <;> simp [Registry.lookupCache_eq, StrMap.upd, he2]

/-- C6: `RegisterForEntity` (and hence `Register`, which delegates with the
own entity id) fails with the duplicate-registration error when the
(entity, componentId) pair is already registered, fails with an
invalid-argument error on an empty entity id, empty component id or nil
provider, and in every failure case leaves the registry — configuration and
cache — exactly unchanged; it succeeds precisely when the arguments are
valid and the pair is not yet registered (so success depends only on the
pair's own membership, not on the order other registrations were made), and
on success it adds exactly that one configuration entry and changes no cache
entry.  `hwf` is the invariant linking the nested Go maps, which holds in
every state the code can reach. -/
theorem c6_register_validation (r : Registry) (e c : String)
    (p : Option Nat) (i : Option Nat) (hwf : r.WF) :
    ((e = "" ∨ c = "" ∨ p = none) →
        (r.registerForEntity e c p i).2 ≠ none ∧ (r.registerForEntity e c p i).1 = r) ∧
    (∀ pv cfg, p = some pv → e ≠ "" → c ≠ "" → r.lookupConfig e c = some cfg →
        (r.registerForEntity e c p i).2
            = some ("component " ++ c ++ " already registered for entity " ++ e) ∧
        (r.registerForEntity e c p i).1 = r) ∧
    ((r.registerForEntity e c p i).2 = none ↔
        e ≠ "" ∧ c ≠ "" ∧ p.isSome = true ∧ r.lookupConfig e c = none) ∧
    ((r.registerForEntity e c p i).2 = none →
        (r.registerForEntity e c p i).1.lookupConfig e c = some ⟨p.getD 0, i⟩ ∧
        (∀ e2 c2, e2 ≠ e ∨ c2 ≠ c →
            (r.registerForEntity e c p i).1.lookupConfig e2 c2 = r.lookupConfig e2 c2) ∧
        (∀ e2 c2, (r.registerForEntity e c p i).1.lookupCache e2 c2
            = r.lookupCache e2 c2)) := by
  by_cases he : e = ""
  · subst he
    rw [Registry.register_invalid_entity r c p i]
    refine ⟨fun _ => ⟨by simp, rfl⟩, ?_, ?_, ?_⟩
    · intro pv cfg _ hne _ _
      exact absurd rfl hne
    · constructor
      · intro h
        simp at h
      · rintro ⟨hne, _⟩
        exact absurd rfl hne
    · intro h
      simp at h
  · by_cases hc : c = ""
    · subst hc
      rw [Registry.register_invalid_component r e he p i]
      refine ⟨fun _ => ⟨by simp, rfl⟩, ?_, ?_, ?_⟩
      · intro pv cfg _ _ hne _
        exact absurd rfl hne
      · constructor
        · intro h
          simp at h
        · rintro ⟨_, hne, _⟩
          exact absurd rfl hne
      · intro h
        simp at h
    · match p with
      | none =>
        rw [Registry.register_nil_provider r e c he hc i]
        refine ⟨fun _ => ⟨by simp, rfl⟩, ?_, ?_, ?_⟩
        · intro pv cfg hp _ _ _
          exact absurd hp (by simp)
        · constructor
          · intro h
            simp at h
          · rintro ⟨_, _, hs, _⟩
            simp at hs
        · intro h
          simp at h
      | some pv =>
        cases hcc : r.lookupConfig e c with
        | some cfg =>
          rw [Registry.register_duplicate r e c he hc pv i cfg hcc hwf]
          refine ⟨?_, fun _ _ _ _ _ _ => ⟨rfl, rfl⟩, ?_, ?_⟩
          · rintro (h | h | h)
            · exact absurd h he
            · exact absurd h hc
            · exact absurd h (by simp)
          · constructor
            · intro h
              simp at h
            · rintro ⟨_, _, _, hnone⟩
              exact absurd hnone (by simp)
          · intro h
            simp at h
        | none =>
          refine ⟨?_, ?_, ?_, ?_⟩
          · rintro (h | h | h)
            · exact absurd h he
            · exact absurd h hc
            · exact absurd h (by simp)
          · intro pv2 cfg _ _ _ hdup
            exact absurd hdup (by simp)
          · constructor
            · intro _
              exact ⟨he, hc, rfl, rfl⟩
            · intro _
              rw [Registry.register_fresh r e c he hc pv i hcc]
          · intro _
            refine ⟨?_, ?_, ?_⟩
            · rw [Registry.register_fresh_lookupConfig r e c he hc pv i hcc e c]
              rw [if_pos ⟨rfl, rfl⟩]
              rfl
            · intro e2 c2 hne
              rw [Registry.register_fresh_lookupConfig r e c he hc pv i hcc e2 c2]
              rw [if_neg (by tauto)]
            · intro e2 c2
              exact Registry.register_fresh_lookupCache r e c he hc pv i hcc e2 c2

theorem Registry.register_WF (r : Registry) (e c : String) (p : Option Nat)
    (i : Option Nat) (hwf : r.WF) : (r.registerForEntity e c p i).1.WF := by
  by_cases he : e = ""
  · subst he
    rw [Registry.register_invalid_entity r c p i]
    exact hwf
  · by_cases hc : c = ""
    · subst hc
      rw [Registry.register_invalid_component r e he p i]
      exact hwf
    · match p with
      | none =>
        rw [Registry.register_nil_provider r e c he hc i]
        exact hwf
      | some pv =>
        cases hcc : r.lookupConfig e c with
        | some cfg =>
          rw [Registry.register_duplicate r e c he hc pv i cfg hcc hwf]
          exact hwf
        | none =>
          rw [Registry.register_fresh r e c he hc pv i hcc]
          intro e2 h
          by_cases he2 : e2 = e
          · simp [StrMap.upd, he2]
          · simp [StrMap.upd, he2] at h ⊢
            exact hwf e2 h

theorem c6_register_validation_witness :
    (((Registry.new "svc").registerForEntity "" "health" (some 1) none).2 ≠ none ∧
      ((Registry.new "svc").registerForEntity "" "health" (some 1) none).1
        = Registry.new "svc") ∧
    (((Registry.new "svc").registerForEntity "svc" "health" (some 1) none).2 = none ↔
      ("svc" : String) ≠ "" ∧ ("health" : String) ≠ "" ∧
      (some 1 : Option Nat).isSome = true ∧
      (Registry.new "svc").lookupConfig "svc" "health" = none) ∧
    ((((Registry.new "svc").registerForEntity "svc" "health" (some 1) none).1.registerForEntity
        "svc" "health" (some 2) none).2
      = some ("component " ++ "health" ++ " already registered for entity " ++ "svc") ∧
     (((Registry.new "svc").registerForEntity "svc" "health" (some 1) none).1.registerForEntity
        "svc" "health" (some 2) none).1
      = ((Registry.new "svc").registerForEntity "svc" "health" (some 1) none).1) :=
  ⟨(c6_register_validation (Registry.new "svc") "" "health" (some 1) none
      (Registry.new_WF "svc")).1 (Or.inl rfl),
   (c6_register_validation (Registry.new "svc") "svc" "health" (some 1) none
      (Registry.new_WF "svc")).2.2.1,
   (c6_register_validation ((Registry.new "svc").registerForEntity "svc" "health"
        (some 1) none).1 "svc" "health" (some 2) none
      (Registry.register_WF (Registry.new "svc") "svc" "health" (some 1) none
        (Registry.new_WF "svc"))).2.1 2 ⟨1, none⟩ rfl (by decide) (by decide) (by decide)⟩

/-- C1: for a registered (entity, componentId) pair, `Collect` serialises the
provider output (`jsonData`) and applies the caching rule.  Cache hit (equal
raw JSON): the cached Component is returned unchanged, no SHA-256 is
computed, and the cache entry only advances `lastUpdate` to `now`.
Otherwise: exactly one SHA-256 is computed over the serialised bytes, a new
Component carrying that checksum is returned, and the cache entry is
replaced preserving `lastSync` (zero time when there was none).  In both
cases the configuration and all other cache entries are untouched. -/
theorem c1_collect_smart_caching (r : Registry) (hash : String → String)
    (e c jsonData : String) (now : Nat) (cfg : ComponentConfig)
    (hreg : r.lookupConfig e c = some cfg) :
    (∀ cached, r.lookupCache e c = some cached → cached.lastRawJSON = jsonData →
      (r.collect hash e c jsonData now).result = .ok cached.lastComponent ∧
      (r.collect hash e c jsonData now).hashCalls = 0 ∧
      (r.collect hash e c jsonData now).registry.lookupCache e c
          = some { cached with lastUpdate := now } ∧
      (r.collect hash e c jsonData now).registry.configs = r.configs ∧
      (∀ e2 c2, e2 ≠ e ∨ c2 ≠ c →
        (r.collect hash e c jsonData now).registry.lookupCache e2 c2
            = r.lookupCache e2 c2)) ∧
    ((∀ cached, r.lookupCache e c = some cached → cached.lastRawJSON ≠ jsonData) →
      (r.collect hash e c jsonData now).hashCalls = 1 ∧
      (r.collect hash e c jsonData now).result = .ok ⟨c, c, hash jsonData, jsonData⟩ ∧
      (r.collect hash e c jsonData now).registry.lookupCache e c
          = some ⟨jsonData, hash jsonData, ⟨c, c, hash jsonData, jsonData⟩,
              ((r.lookupCache e c).map CachedComponent.lastSync).getD 0, now⟩ ∧
      (r.collect hash e c jsonData now).registry.configs = r.configs ∧
      (∀ e2 c2, e2 ≠ e ∨ c2 ≠ c →
        (r.collect hash e c jsonData now).registry.lookupCache e2 c2
            = r.lookupCache e2 c2)) := by
  constructor
  · intro cached hcache hraw
    have hcol : r.collect hash e c jsonData now =
        ⟨.ok cached.lastComponent,
         { r with cache := r.cache.upd e (some (((r.cache e).getD StrMap.empty).upd c
             (some { cached with lastUpdate := now }))) }, 0⟩ := by
      simp only [Registry.collect, hreg, Registry.getD_cache, hcache]
      rw [if_pos hraw]
    rw [hcol]
    refine ⟨rfl, rfl, ?_, rfl, ?_⟩
    · rw [Registry.lookupCache_eq]
      simp [StrMap.upd]
    · intro e2 c2 hne
      rw [Registry.lookupCache_eq, Registry.lookupCache_eq]
      by_cases he2 : e2 = e
      · rcases hne with hne | hne
        · exact absurd he2 hne
        · simp [StrMap.upd, he2, hne]
      · simp [StrMap.upd, he2]
  · intro hmiss
    cases hcache : r.lookupCache e c with
    | some cached =>
      have hraw : cached.lastRawJSON ≠ jsonData := hmiss cached hcache
      have hcol : r.collect hash e c jsonData now =
          ⟨.ok ⟨c, c, hash jsonData, jsonData⟩,
           { r with cache := r.cache.upd e (some (((r.cache e).getD StrMap.empty).upd c
               (some ⟨jsonData, hash jsonData, ⟨c, c, hash jsonData, jsonData⟩,
                  cached.lastSync, now⟩))) }, 1⟩ := by
        simp only [Registry.collect, hreg, Registry.getD_cache, hcache]
        rw [if_neg hraw]
      rw [hcol]
      refine ⟨rfl, rfl, ?_, rfl, ?_⟩
      · rw [Registry.lookupCache_eq]
        simp [StrMap.upd]
      · intro e2 c2 hne
        rw [Registry.lookupCache_eq, Registry.lookupCache_eq]
        by_cases he2 : e2 = e
        · rcases hne with hne | hne
          · exact absurd he2 hne
          · simp [StrMap.upd, he2, hne]
        · simp [StrMap.upd, he2]
    | none =>
      have hcol : r.collect hash e c jsonData now =
          ⟨.ok ⟨c, c, hash jsonData, jsonData⟩,
           { r with cache := r.cache.upd e (some (((r.cache e).getD StrMap.empty).upd c
               (some ⟨jsonData, hash jsonData, ⟨c, c, hash jsonData, jsonData⟩,
                  0, now⟩))) }, 1⟩ := by
        simp only [Registry.collect, hreg, Registry.getD_cache, hcache]
      rw [hcol]
      refine ⟨rfl, rfl, ?_, rfl, ?_⟩
      · rw [Registry.lookupCache_eq]
        simp [StrMap.upd]
      · intro e2 c2 hne
        rw [Registry.lookupCache_eq, Registry.lookupCache_eq]
        by_cases he2 : e2 = e
        · rcases hne with hne | hne
          · exact absurd he2 hne
          · simp [StrMap.upd, he2, hne]
        · simp [StrMap.upd, he2]

/-- A concrete stand-in for the SHA-256 hex digest, for witnesses. -/
def demoHash : String → String := fun s => "#" ++ s

/-- A registry with one registered component, for witnesses. -/
def demoReg1 : Registry :=
  ((Registry.new "svc").registerForEntity "svc" "health" (some 1) none).1

/-- The registry after a first collect of that component, for witnesses. -/
def demoReg2 : Registry :=
  (demoReg1.collect demoHash "svc" "health" "[1]" 5).registry

/-- The cache entry created by that first collect, for witnesses. -/
def demoCached : CachedComponent :=
  ⟨"[1]", demoHash "[1]", ⟨"health", "health", demoHash "[1]", "[1]"⟩, 0, 5⟩

theorem c1_collect_smart_caching_witness :
    ((demoReg1.collect demoHash "svc" "health" "[1]" 5).hashCalls = 1 ∧
     (demoReg1.collect demoHash "svc" "health" "[1]" 5).result
        = .ok ⟨"health", "health", demoHash "[1]", "[1]"⟩ ∧
     (demoReg1.collect demoHash "svc" "health" "[1]" 5).registry.lookupCache "svc" "health"
        = some ⟨"[1]", demoHash "[1]", ⟨"health", "health", demoHash "[1]", "[1]"⟩,
            ((demoReg1.lookupCache "svc" "health").map CachedComponent.lastSync).getD 0, 5⟩) ∧
    ((demoReg2.collect demoHash "svc" "health" "[1]" 9).result
        = .ok demoCached.lastComponent ∧
     (demoReg2.collect demoHash "svc" "health" "[1]" 9).hashCalls = 0 ∧
     (demoReg2.collect demoHash "svc" "health" "[1]" 9).registry.lookupCache "svc" "health"
        = some { demoCached with lastUpdate := 9 } ∧
     (demoReg2.collect demoHash "svc" "health" "[1]" 9).registry.configs = demoReg2.configs) :=
  have hB := (c1_collect_smart_caching demoReg1 demoHash "svc" "health" "[1]" 5
      ⟨1, none⟩ (by decide)).2
    (by
      intro cached hc
      rw [(by decide : demoReg1.lookupCache "svc" "health" = (none : Option CachedComponent))]
        at hc
      exact absurd hc (by simp))
  have hA := (c1_collect_smart_caching demoReg2 demoHash "svc" "health" "[1]" 9
      ⟨1, none⟩ (by decide)).1 demoCached (by decide) rfl
  ⟨⟨hB.1, hB.2.1, hB.2.2.1⟩, ⟨hA.1, hA.2.1, hA.2.2.1, hA.2.2.2.1⟩⟩

/-! ## Three-phase sync (HTTP request ordering) -/

/-- An HTTP POST issued by `performThreePhaseSync`: to `/sync/checksums`
(`sendChecksums`, phase 2) or to `/sync/components` (`sendComponents`,
phase 3). -/
inductive SyncAction
  | postChecksums
  | postComponents
  deriving DecidableEq, Repr

/-- Control flow of `Client.performThreePhaseSync` (part_002 lines 640-728)
after the local collect phase: `checksumPhase` is the outcome of the POST to
`/sync/checksums` (on success, the decoded `needed` map, entity → component
ids); `dataPhase` is the outcome of the POST to `/sync/components` if it is
made.  Returns the ordered list of POSTs issued and the overall result: the
data phase runs exactly when the `needed` map is non-empty (`len > 0` on the
Go map), and errors are wrapped with the failing phase's name. -/
def performThreePhaseSync
    (checksumPhase : Except String (List (String × List String)))
    (dataPhase : Except String Unit) :
    List SyncAction × Except String Unit :=
  match checksumPhase with
  | .error msg => ([.postChecksums], .error ("checksum phase failed: " ++ msg))
  | .ok needed =>
    if needed.length > 0 then
      match dataPhase with
      | .error msg =>
        ([.postChecksums, .postComponents], .error ("data phase failed: " ++ msg))
      | .ok _ => ([.postChecksums, .postComponents], .ok ())
    else ([.postChecksums], .ok ())

/-- C7: in every three-phase sync attempt, the POST to `/sync/checksums`
comes first (the trace is either just the checksum POST, or the checksum
POST followed by the data POST — so every data POST is preceded by the
checksum POST), and the POST to `/sync/components` is issued exactly when
the checksum phase succeeded and returned a non-empty `needed` map. -/
theorem c7_phase_order (cp : Except String (List (String × List String)))
    (dp : Except String Unit) :
    (performThreePhaseSync cp dp).1.head? = some .postChecksums ∧
    ((performThreePhaseSync cp dp).1 = [.postChecksums] ∨
     (performThreePhaseSync cp dp).1 = [.postChecksums, .postComponents]) ∧
    (SyncAction.postComponents ∈ (performThreePhaseSync cp dp).1 ↔
      ∃ needed, cp = .ok needed ∧ needed ≠ []) := by
  match cp with
  | .error msg =>
    refine ⟨rfl, Or.inl rfl, ?_⟩
    constructor
    · intro h
      simp [performThreePhaseSync] at h
    · rintro ⟨needed, hn, -⟩
      exact absurd hn (by simp)
  | .ok needed =>
    by_cases hn : needed.length > 0
    · have hne : needed ≠ [] := by
        intro h0
        rw [h0] at hn
        simp at hn
      match dp with
      | .error msg =>
        refine ⟨by simp [performThreePhaseSync, hn], ?_, ?_⟩
        · right
          simp [performThreePhaseSync, hn]
        · constructor
          · intro _
            exact ⟨needed, rfl, hne⟩
          · intro _
            simp [performThreePhaseSync, hn]
      | .ok _ =>
        refine ⟨by simp [performThreePhaseSync, hn], ?_, ?_⟩
        · right
          simp [performThreePhaseSync, hn]
        · constructor
          · intro _
            exact ⟨needed, rfl, hne⟩
          · intro _
            simp [performThreePhaseSync, hn]
    · have hne : needed = [] := by
        cases needed with
        | nil => rfl
        | cons a l => simp at hn
      refine ⟨by simp [performThreePhaseSync, hn], ?_, ?_⟩
      · left
        simp [performThreePhaseSync, hn]
      · constructor
        · intro h
          simp [performThreePhaseSync, hn] at h
        · rintro ⟨needed2, hn2, hne2⟩
          have : needed2 = needed := by
            injection hn2.symm
          rw [this, hne] at hne2
          exact absurd rfl hne2

/-! ## Transport CA selection -/

/-- CA trust-store selection in `BuildHTTP2Client`
(src/transport/http2.go lines 28-34): the directory probed for the chain
file is hardcoded to "/certs"; `fileExists` models `os.Stat` succeeding. -/
def buildHTTP2ClientCAPath (fileExists : String → Bool) (caPath : String) : String :=
  let caDir := "/certs"
  let caChainPath := caDir ++ "/ca-chain.cert.pem"
  if fileExists caChainPath then caChainPath else caPath

/-- The claim's reading of the CA selection, written from the specification
sentence "CA trust store from `<certDir>/ca-chain.cert.pem` if present else
from the configured CA path": the probed directory is the configured
certificate directory, not a constant. -/
def specCAPath (fileExists : String → Bool) (certDir caPath : String) : String :=
  let caChainPath := certDir ++ "/ca-chain.cert.pem"
  if fileExists caChainPath then caChainPath else caPath

/-- C8 counterexample: with the certificate directory configured as
"/etc/pki" and the chain file present exactly there, the specification's
selection picks "/etc/pki/ca-chain.cert.pem" but the code — which probes the
hardcoded "/certs" — falls back to the configured CA path. -/
theorem c8_counterexample :
    buildHTTP2ClientCAPath (fun s => s == "/etc/pki/ca-chain.cert.pem") "/ca.pem"
        = "/ca.pem" ∧
    specCAPath (fun s => s == "/etc/pki/ca-chain.cert.pem") "/etc/pki" "/ca.pem"
        = "/etc/pki/ca-chain.cert.pem" ∧
    buildHTTP2ClientCAPath (fun s => s == "/etc/pki/ca-chain.cert.pem") "/ca.pem"
        ≠ specCAPath (fun s => s == "/etc/pki/ca-chain.cert.pem") "/etc/pki" "/ca.pem" := by
  refine ⟨by decide, by decide, by decide⟩

/-- C8 (amended): the transport builder selects the CA trust store from the
hardcoded path "/certs/ca-chain.cert.pem" when that file exists and
otherwise from the configured CA path; the configured certificate directory
is not consulted, so the specification's selection agrees with the code
exactly when the certificate directory is "/certs". -/
theorem c8_amended_ca_selection :
    (∀ (fe : String → Bool) (caPath : String),
      (buildHTTP2ClientCAPath fe caPath = "/certs/ca-chain.cert.pem" ∧
        fe "/certs/ca-chain.cert.pem" = true) ∨
      (buildHTTP2ClientCAPath fe caPath = caPath ∧
        fe "/certs/ca-chain.cert.pem" = false)) ∧
    (∀ (fe : String → Bool) (caPath : String),
      specCAPath fe "/certs" caPath = buildHTTP2ClientCAPath fe caPath) := by
  constructor
  · intro fe caPath
    by_cases h : fe "/certs/ca-chain.cert.pem" = true
    · left
      exact ⟨by simp [buildHTTP2ClientCAPath, h], h⟩
    · right
      rw [Bool.not_eq_true] at h
      exact ⟨by simp [buildHTTP2ClientCAPath, h], h⟩
  · intro fe caPath
    rfl

/-! ## Heartbeat system: idle-since tracking -/

/-- The events that can touch `Client.idleSince`, each carrying the
`time.Now()` at which it runs.  `heartbeatFire` is `onHeartbeatFire`
(part_002 lines 482-500), `updateTimerFire` is `onUpdateTimerFire` (lines
539-568), `explicitTrigger` is `TriggerUpdateForEntity` with a successful
collect (lines 402-419; on a collect error the method returns before
touching `idleSince`, which `explicitTriggerFailed` models), and
`errWarnLog` is `triggerSyncFromLogs` (lines 357-366). -/
inductive ClientEvent
  | heartbeatFire (now : Nat)
  | updateTimerFire (now : Nat)
  | explicitTrigger (now : Nat)
  | explicitTriggerFailed (now : Nat)
  | errWarnLog (now : Nat)
  deriving DecidableEq, Repr

/-- The wall-clock instant an event runs at. -/
def ClientEvent.time : ClientEvent → Nat
  | .heartbeatFire n => n
  | .updateTimerFire n => n
  | .explicitTrigger n => n
  | .explicitTriggerFailed n => n
  | .errWarnLog n => n

/-- Real activity in the sense of ADR-032: exactly the events whose handler
assigns `c.idleSince = time.Now()`. -/
def ClientEvent.isRealActivity : ClientEvent → Bool
  | .explicitTrigger _ => true
  | .errWarnLog _ => true
  | _ => false

/-- Effect of one event on `idleSince`: `TriggerUpdateForEntity` (successful)
and `triggerSyncFromLogs` set it to now; the heartbeat and update timers —
per the ADR-032 comments in the code — leave it unchanged, as does a failed
explicit trigger. -/
def applyEvent (idleSince : Nat) : ClientEvent → Nat
  | .explicitTrigger now => now
  | .errWarnLog now => now
  | .heartbeatFire _ => idleSince
  | .updateTimerFire _ => idleSince
  | .explicitTriggerFailed _ => idleSince

/-- Run a sequence of events over `idleSince` (initially `time.Now()` of
`New`, part_002 line 300). -/
def runEvents (idleSince : Nat) (es : List ClientEvent) : Nat :=
  es.foldl applyEvent idleSince

/-- Event timestamps are non-decreasing and start no earlier than `t0` — the
monotone wall clock. -/
def chronological (t0 : Nat) : List ClientEvent → Bool
  | [] => true
  | e :: es => decide (t0 ≤ e.time) && chronological e.time es

theorem chronological_anti (t0 t1 : Nat) (es : List ClientEvent)
    (h : chronological t0 es = true) (hle : t1 ≤ t0) :
    chronological t1 es = true := by
  cases es with
  | nil => rfl
  | cons e es =>
    simp only [chronological, Bool.and_eq_true, decide_eq_true_eq] at h ⊢
    exact ⟨le_trans hle h.1, h.2⟩

theorem applyEvent_ge (s : Nat) (e : ClientEvent) (h : s ≤ e.time) :
    s ≤ applyEvent s e ∧ applyEvent s e ≤ e.time := by
  cases e <;> simp [applyEvent, ClientEvent.time] at h ⊢ <;> omega

theorem runEvents_ge (es : List ClientEvent) :
    ∀ t0, chronological t0 es = true → t0 ≤ runEvents t0 es := by
  induction es with
  | nil =>
    intro t0 _
    exact le_refl t0
  | cons e es ih =>
    intro t0 h
    simp only [chronological, Bool.and_eq_true, decide_eq_true_eq] at h
    obtain ⟨h1, h2⟩ := h
    obtain ⟨ha, hb⟩ := applyEvent_ge t0 e h1
    have h3 : chronological (applyEvent t0 e) es = true :=
      chronological_anti e.time (applyEvent t0 e) es h2 hb
    exact le_trans ha (ih (applyEvent t0 e) h3)

theorem chronological_runEvents (l1 : List ClientEvent) :
    ∀ (t0 : Nat) (l2 : List ClientEvent), chronological t0 (l1 ++ l2) = true →
      chronological (runEvents t0 l1) l2 = true := by
  induction l1 with
  | nil =>
    intro t0 l2 h
    exact h
  | cons e l1 ih =>
    intro t0 l2 h
    simp only [List.cons_append, chronological, Bool.and_eq_true, decide_eq_true_eq] at h
    obtain ⟨h1, h2⟩ := h
    obtain ⟨-, hb⟩ := applyEvent_ge t0 e h1
    have h3 : chronological (applyEvent t0 e) (l1 ++ l2) = true :=
      chronological_anti e.time (applyEvent t0 e) (l1 ++ l2) h2 hb
    exact ih (applyEvent t0 e) l2 h3

/-- C4: over any chronological run of timer fires, explicit triggers and
Error/Warn log events, `idleSince` is non-decreasing (the value after any
prefix is at most the value after the whole run), and a step changes it only
when the event is real activity — a successful explicit
TriggerUpdate/TriggerUpdateForEntity or an Error/Warn log trigger; a
heartbeat fire, an update-timer fire or a failed trigger leaves it exactly
unchanged. -/
theorem c4_idle_since_monotone (t0 : Nat) (es : List ClientEvent)
    (hc : chronological t0 es = true) :
    (∀ l1 l2, es = l1 ++ l2 → runEvents t0 l1 ≤ runEvents t0 es) ∧
    (∀ l1 e l2, es = l1 ++ e :: l2 → e.isRealActivity = false →
      runEvents t0 (l1 ++ [e]) = runEvents t0 l1) := by
  constructor
  · intro l1 l2 hsplit
    subst hsplit
    show runEvents t0 l1 ≤ runEvents t0 (l1 ++ l2)
    unfold runEvents
    rw [List.foldl_append]
    exact runEvents_ge l2 (runEvents t0 l1) (chronological_runEvents l1 t0 l2 hc)
  · intro l1 e l2 hsplit hact
    show runEvents t0 (l1 ++ [e]) = runEvents t0 l1
    unfold runEvents
    rw [List.foldl_append]
    show applyEvent (runEvents t0 l1) e = runEvents t0 l1
    cases e with
    | heartbeatFire n => rfl
    | updateTimerFire n => rfl
    | explicitTriggerFailed n => rfl
    | explicitTrigger n => simp [ClientEvent.isRealActivity] at hact
    | errWarnLog n => simp [ClientEvent.isRealActivity] at hact

theorem c4_idle_since_monotone_witness :
    (∀ l1 l2, ([ClientEvent.heartbeatFire 10, ClientEvent.errWarnLog 20,
        ClientEvent.updateTimerFire 30] : List ClientEvent) = l1 ++ l2 →
      runEvents 0 l1 ≤ runEvents 0 [ClientEvent.heartbeatFire 10,
        ClientEvent.errWarnLog 20, ClientEvent.updateTimerFire 30]) ∧
    (∀ l1 e l2, ([ClientEvent.heartbeatFire 10, ClientEvent.errWarnLog 20,
        ClientEvent.updateTimerFire 30] : List ClientEvent) = l1 ++ e :: l2 →
      e.isRealActivity = false → runEvents 0 (l1 ++ [e]) = runEvents 0 l1) :=
  c4_idle_since_monotone 0
    [ClientEvent.heartbeatFire 10, ClientEvent.errWarnLog 20,
     ClientEvent.updateTimerFire 30] (by decide)

/-! ## Sync system: trigger coalescing and (intended) mutual exclusion -/

/-- Program counter of one goroutine running `Client.triggerSync` followed by
`Client.executeSyncLoop` (part_002 lines 576-607).  `atTrigger` is about to
run triggerSync's `syncMu`-protected check; `atLoop` is about to run the
loop's `syncMu`-protected check; `inExecuteSync` is inside `executeSync` —
the code does NOT hold `syncMu` there (executeSyncLoop unlocks before
calling it); `finished` has returned. -/
inductive SyncPC
  | atTrigger
  | atLoop
  | inExecuteSync
  | finished
  deriving DecidableEq, Repr

/-- Shared state for two goroutines delivering sync triggers: the
`syncPending` flag and both program counters.  `syncMu` is modelled by
making each mutex-protected section a single atomic step, which is exactly
the serialisation the mutex provides; `executeSync` runs outside it. -/
structure SyncSysState where
  pending : Bool
  pc1 : SyncPC
  pc2 : SyncPC
  deriving DecidableEq, Repr

/-- The steps one goroutine can take, as (pending, pc) → (pending, pc):
triggerSync returns at once when `syncPending` is already set, otherwise
sets it and enters the loop; the loop returns when the flag is clear,
otherwise clears it and calls `executeSync`; when `executeSync` returns the
loop re-checks the flag. -/
inductive ThreadStep : Bool → SyncPC → Bool → SyncPC → Prop
  | triggerSeen : ThreadStep true .atTrigger true .finished
  | triggerSet : ThreadStep false .atTrigger true .atLoop
  | loopExit : ThreadStep false .atLoop false .finished
  | loopTake : ThreadStep true .atLoop false .inExecuteSync
  | syncReturn (p : Bool) : ThreadStep p .inExecuteSync p .atLoop

/-- Interleaving of the two goroutines. -/
inductive SyncSysStep : SyncSysState → SyncSysState → Prop
  | thread1 {p p2 : Bool} {pc pc2 : SyncPC} {q : SyncPC} :
      ThreadStep p pc p2 pc2 → SyncSysStep ⟨p, pc, q⟩ ⟨p2, pc2, q⟩
  | thread2 {p p2 : Bool} {pc pc2 : SyncPC} {q : SyncPC} :
      ThreadStep p pc p2 pc2 → SyncSysStep ⟨p, q, pc⟩ ⟨p2, q, pc2⟩

/-- C2 violation: starting from no pending flag and two goroutines about to
deliver a trigger (e.g. a heartbeat fire concurrent with an Error-log
trigger, both of which call `triggerSync` on their own goroutine), the
system reaches a state in which BOTH goroutines are inside `executeSync` at
once: goroutine 1 sets the flag, enters the loop, clears the flag and starts
its sync; goroutine 2 then finds `syncPending == false` (the flag is false
while a sync runs), sets it, enters the loop, clears it and starts a second,
overlapping sync.  The `syncMu` mutex cannot prevent this because it is
released before `executeSync` is called. -/
theorem c2_two_syncs_overlap :
    Relation.ReflTransGen SyncSysStep
      ⟨false, .atTrigger, .atTrigger⟩ ⟨false, .inExecuteSync, .inExecuteSync⟩ := by
  have s1 : SyncSysStep ⟨false, .atTrigger, .atTrigger⟩ ⟨true, .atLoop, .atTrigger⟩ :=
    SyncSysStep.thread1 ThreadStep.triggerSet
  have s2 : SyncSysStep ⟨true, .atLoop, .atTrigger⟩ ⟨false, .inExecuteSync, .atTrigger⟩ :=
    SyncSysStep.thread1 ThreadStep.loopTake
  have s3 : SyncSysStep ⟨false, .inExecuteSync, .atTrigger⟩ ⟨true, .inExecuteSync, .atLoop⟩ :=
    SyncSysStep.thread2 ThreadStep.triggerSet
  have s4 : SyncSysStep ⟨true, .inExecuteSync, .atLoop⟩ ⟨false, .inExecuteSync, .inExecuteSync⟩ :=
    SyncSysStep.thread2 ThreadStep.loopTake
  exact Relation.ReflTransGen.head s1 (Relation.ReflTransGen.head s2
    (Relation.ReflTransGen.head s3 (Relation.ReflTransGen.head s4
      Relation.ReflTransGen.refl)))
